import Mathlib

/-!
Verification of the rentZone booking availability / conflict-resolution logic.

The definitions below are a shallow embedding of the relevant request
handlers of the repository:

* `ownerBookingsPut`    — the owner-bookings PUT handler
  (src/unnamed/part_001, lines 244-677): accept / reject / cancel /
  complete a booking, with the date-conflict guard and the auto-rejection
  cascade.
* `userProfileCreateBooking` — the POST create-booking handler
  (src/backend/lambda-functions/rentzone-user-profile/index.mjs,
  lines 564-680).  The rentzone-booking-request lambda (index.mjs lines
  164-188) runs the identical availability query with the same date
  predicate.
* `bookedDatesQuery` / `availabilityCalendar` / `houseDetailsGet` — the
  house-details GET handler (src/unnamed/part_001, lines 745-1100):
  view-count update, booked-dates query and the availability calendar.

Calendar timestamps are modelled as `Int` day numbers (the code compares
Date values with <=, >=; only their ordering matters here).  Fields of the
Mongo documents that no claim touches (audit timestamps, monetary amounts,
notification payloads) are omitted; every query filter and every `$set`
field that affects booking status, dates, rejection reason or status
history is carried over literally.
-/

namespace RentZone

/-- Booking status values used by the handlers
(src/unnamed/part_001 lines 286-293 and the status literals throughout). -/
inductive BookingStatus where
  | pending
  | confirmed
  | active
  | completed
  | cancelled
  | rejected
  deriving Repr, DecidableEq

/-- The four values accepted by the validActions check of the owner-bookings
PUT handler (src/unnamed/part_001 line 260).  Any other action string is
rejected with a 400 before the store is read, so it is not modelled. -/
inductive Action where
  | accept
  | reject
  | cancel
  | complete
  deriving Repr, DecidableEq

/-- One entry of a booking statusHistory array, as pushed by the owner
bookings PUT handler (src/unnamed/part_001 lines 346-355).  The notes
field is dropped; byUser is the ownerId the source records under the
key named by. -/
structure HistoryEntry where
  fromStatus : BookingStatus
  toStatus : BookingStatus
  action : Action
  byUser : Nat
  reason : Option String
  deriving Repr, DecidableEq

/-- A booking document.  houseId is the property reference (the spec calls
it propertyId).  Only the fields read or written by the modelled handlers
are kept. -/
structure Booking where
  id : Nat
  houseId : Nat
  ownerId : Nat
  renterId : Nat
  checkInDate : Int
  checkOutDate : Int
  status : BookingStatus
  rejectionReason : Option String
  statusHistory : List HistoryEntry
  deriving Repr, DecidableEq

/-- A house document: the fields consulted by the create-booking
availability check (status, isActive, availability.isAvailable), the
price amount used by the calendar, and the view counters written by the
house-details GET handler. -/
structure House where
  id : Nat
  ownerId : Nat
  status : String
  isActive : Bool
  isAvailable : Bool
  price : Int
  views : Nat
  viewedBy : List (Option Nat)
  deriving Repr, DecidableEq

/-- The status $in [confirmed, active] filter used by the accept
conflict query and by the calendar bookedDates query
(src/unnamed/part_001 lines 362 and 888). -/
def confActive (b : Booking) : Bool :=
  decide (b.status = .confirmed) || decide (b.status = .active)

/-- The date test shared by every overlap query in the source:
checkInDate lte rangeEnd AND checkOutDate gte rangeStart
(src/unnamed/part_001 lines 363-368 and 545-550 and 645-650 and 889-890;
rentzone-booking-request/index.mjs lines 168-173;
rentzone-user-profile/index.mjs lines 605-610). -/
def dateOverlapQuery (rangeStart rangeEnd : Int) (b : Booking) : Bool :=
  decide (b.checkInDate ≤ rangeEnd) && decide (b.checkOutDate ≥ rangeStart)

/-- The filter of the findOne / findOneAndUpdate calls of the owner-bookings
PUT handler: _id = bookingId AND ownerId = caller
(src/unnamed/part_001 lines 272-275 and 389-393). -/
def isTargetB (bookingId callerId : Nat) (b : Booking) : Bool :=
  decide (b.id = bookingId) && decide (b.ownerId = callerId)

/-- The stateTransition table of the owner-bookings PUT handler
(src/unnamed/part_001 lines 286-293).  The source list for confirmed also
holds the string active, which is not one of the four valid actions and
is therefore unreachable behind the validActions gate of line 260. -/
def stateTransition : BookingStatus → List Action
  | .pending => [.accept, .reject, .cancel]
  | .confirmed => [.cancel, .complete]
  | .active => [.complete]
  | .completed => []
  | .cancelled => []
  | .rejected => []

/-- newStatus per action (src/unnamed/part_001 lines 313-343). -/
def actionNewStatus : Action → BookingStatus
  | .accept => .confirmed
  | .reject => .rejected
  | .cancel => .cancelled
  | .complete => .completed

/-- The $set document applied by the findOneAndUpdate of the owner-bookings
PUT handler (src/unnamed/part_001 lines 305-355, 388-393), restricted to
the modelled fields: status, the pushed statusHistory entry, and
rejectionReason for the reject action.  booking is the document read at
line 272. -/
def applyUpdateFields (booking : Booking) (callerId : Nat) (action : Action)
    (reason : Option String) (b : Booking) : Booking :=
  { b with
    status := actionNewStatus action
    statusHistory := booking.statusHistory ++
      [⟨booking.status, actionNewStatus action, action, callerId, reason⟩]
    rejectionReason := if action = .reject then reason else b.rejectionReason }

/-- The overlappingBookings query run when accepting
(src/unnamed/part_001 lines 359-369): another booking of the same house
with status confirmed or active whose dates satisfy the shared date test
against the read booking. -/
def acceptConflictPred (bookingId : Nat) (booking : Booking) (b : Booking) : Bool :=
  decide (b.id ≠ bookingId) && decide (b.houseId = booking.houseId) &&
  confActive b && dateOverlapQuery booking.checkInDate booking.checkOutDate b

/-- The filter of both auto-rejection cascades
(src/unnamed/part_001 lines 541-551 and 640-651): another booking of the
same house, still pending, whose dates satisfy the shared date test. -/
def cascadePred (bookingId : Nat) (booking : Booking) (b : Booking) : Bool :=
  decide (b.id ≠ bookingId) && decide (b.houseId = booking.houseId) &&
  decide (b.status = .pending) &&
  dateOverlapQuery booking.checkInDate booking.checkOutDate b

/-- The $set document of both cascade updateMany calls
(src/unnamed/part_001 lines 559-566 and 652-659): status rejected and the
rejection reason.  Note that neither cascade touches statusHistory. -/
def cascadeSet (b : Booking) : Booking :=
  { b with
    status := .rejected
    rejectionReason := some "Dates no longer available (booking accepted for another renter)" }

/-- Mongo findOneAndUpdate on a list: apply f to the first element
satisfying p, leave the rest unchanged. -/
def updateWhereFirst (p : α → Bool) (f : α → α) : List α → List α
  | [] => []
  | b :: rest => if p b then f b :: rest else b :: updateWhereFirst p f rest

/-- Mongo updateMany on a list: apply f to every element satisfying p. -/
def updateWhereAll (p : α → Bool) (f : α → α) (s : List α) : List α :=
  s.map fun b => if p b then f b else b

/-- First cascade (src/unnamed/part_001 lines 541-567): find the matching
pending bookings, then updateMany by the list of their ids. -/
def cascadeRejectByIds (bookingId : Nat) (booking : Booking) (s : List Booking) : List Booking :=
  let ids := (s.filter (cascadePred bookingId booking)).map (fun b => b.id)
  updateWhereAll (fun b => ids.contains b.id) cascadeSet s

/-- Second cascade (src/unnamed/part_001 lines 638-661): updateMany
directly on the cascade filter. -/
def cascadeReject (bookingId : Nat) (booking : Booking) (s : List Booking) : List Booking :=
  updateWhereAll (cascadePred bookingId booking) cascadeSet s

/-- One element of the conflictingBookings array returned with the 409
(src/unnamed/part_001 lines 377-382). -/
structure ConflictInfo where
  id : Nat
  checkIn : Int
  checkOut : Int
  status : BookingStatus
  deriving Repr, DecidableEq

def mkConflict (b : Booking) : ConflictInfo :=
  ⟨b.id, b.checkInDate, b.checkOutDate, b.status⟩

/-- Outcome of the owner-bookings PUT handler: 404 booking not found,
400 invalid state transition (the message interpolates both the action and
the current status, line 300), 409 date conflict carrying the conflicting
bookings, or 200 with the new status. -/
inductive PutResult where
  | notFound
  | invalidTransition (current : BookingStatus) (action : Action)
  | dateConflict (conflicts : List ConflictInfo)
  | ok (newStatus : BookingStatus)
  deriving Repr, DecidableEq

/-- The owner-bookings PUT handler (src/unnamed/part_001 lines 244-677),
acting on the bookings collection.  callerId is the ObjectId of the
authenticated user (decoded.userId, line 116); owners and admins both
reach this code and both are filtered as ownerId.  Returns the response
and the updated bookings collection.  Notification writes (a separate
collection) are not modelled; the first cascade sits inside the
notification try block and the second after it, so on the accept path
both cascades run. -/
def ownerBookingsPut (s : List Booking) (callerId bookingId : Nat) (action : Action)
    (reason : Option String) : PutResult × List Booking :=
  match s.find? (isTargetB bookingId callerId) with
  | none => (.notFound, s)
  | some booking =>
    if action ∈ stateTransition booking.status then
      if action = .accept ∧ s.filter (acceptConflictPred bookingId booking) ≠ [] then
        (.dateConflict ((s.filter (acceptConflictPred bookingId booking)).map mkConflict), s)
      else
        (.ok (actionNewStatus action),
         if action = .accept then
           cascadeReject bookingId booking (cascadeRejectByIds bookingId booking
             (updateWhereFirst (isTargetB bookingId callerId)
               (applyUpdateFields booking callerId action reason) s))
         else
           updateWhereFirst (isTargetB bookingId callerId)
             (applyUpdateFields booking callerId action reason) s)
    else
      (.invalidTransition booking.status action, s)

/-- House filter of the create-booking handlers
(rentzone-user-profile/index.mjs lines 586-591;
rentzone-booking-request/index.mjs lines 120-125):
approved, active and available. -/
def houseAvailPred (houseId : Nat) (h : House) : Bool :=
  decide (h.id = houseId) && decide (h.status = "approved") && h.isActive && h.isAvailable

/-- The existingBooking availability filter of both create-booking handlers
(rentzone-user-profile/index.mjs lines 602-611;
rentzone-booking-request/index.mjs lines 165-174): any booking of the house
with status pending, confirmed or active whose dates satisfy the shared
date test against the requested range. -/
def createConflictPred (houseId : Nat) (checkIn checkOut : Int) (b : Booking) : Bool :=
  decide (b.houseId = houseId) &&
  (decide (b.status = .pending) || decide (b.status = .confirmed) ||
    decide (b.status = .active)) &&
  dateOverlapQuery checkIn checkOut b

/-- Outcome of the POST create-booking handler: 404 property not available,
409 date conflict, or 201 with the inserted booking. -/
inductive CreateResult where
  | notAvailable
  | dateConflict
  | created (b : Booking)
  deriving Repr, DecidableEq

/-- The POST create-booking handler
(rentzone-user-profile/index.mjs lines 564-680): look up an available
house, run the existingBooking availability query, then insert a new
booking with status pending and the requested dates.  newId models the
generated Mongo _id of the insert.  There is no comparison of checkInDate
against checkOutDate anywhere on this path (nor in
rentzone-booking-request/index.mjs lines 135-162, whose only date
validation is the move-in-date-not-in-the-past check). -/
def userProfileCreateBooking (houses : List House) (bookings : List Booking)
    (renterId houseId newId : Nat) (checkInDate checkOutDate : Int) :
    CreateResult × List Booking :=
  match houses.find? (houseAvailPred houseId) with
  | none => (.notAvailable, bookings)
  | some house =>
    match bookings.find? (createConflictPred houseId checkInDate checkOutDate) with
    | some _ => (.dateConflict, bookings)
    | none =>
      let nb : Booking :=
        { id := newId, houseId := houseId, ownerId := house.ownerId, renterId := renterId
          checkInDate := checkInDate, checkOutDate := checkOutDate
          status := .pending, rejectionReason := none, statusHistory := [] }
      (.created nb, bookings ++ [nb])

/-- One entry of the availabilityCalendar array
(src/unnamed/part_001 lines 1057-1061): the day, its availability flag and
the listed price. -/
structure CalendarEntry where
  date : Int
  available : Bool
  price : Int
  deriving Repr, DecidableEq

/-- The bookedDates query of the house-details GET handler
(src/unnamed/part_001 lines 886-893): bookings of the house with status
confirmed or active intersecting the window, by the shared date test. -/
def bookedDatesQuery (bookings : List Booking) (houseId : Nat) (today ninety : Int) :
    List Booking :=
  bookings.filter fun b =>
    decide (b.houseId = houseId) && confActive b && dateOverlapQuery today ninety b

/-- The availability calendar loop (src/unnamed/part_001 lines 1048-1064):
one entry per day from today up to and including ninetyDaysLater, with
available = NOT (some fetched booking has checkInDate lte day AND day lte
checkOutDate). -/
def availabilityCalendar (bookedDates : List Booking) (price : Int) (today ninety : Int) :
    List CalendarEntry :=
  (List.range (ninety - today + 1).toNat).map fun (i : Nat) =>
    let day : Int := today + (i : Int)
    { date := day
      available := !(bookedDates.any fun b =>
        decide (day ≥ b.checkInDate) && decide (day ≤ b.checkOutDate))
      price := price }

/-- The $inc views / $push viewedBy update of the house-details GET handler
(src/unnamed/part_001 lines 787-801).  viewer is decoded.userId when a
token verifies, null otherwise. -/
def incView (viewer : Option Nat) (h : House) : House :=
  { h with views := h.views + 1, viewedBy := h.viewedBy ++ [viewer] }

/-- The visibility gate of the house-details GET handler
(src/unnamed/part_001 lines 811-819): anonymous viewers and viewers whose
role is neither owner nor admin only see approved, active, available
houses.  role is none for an unauthenticated request. -/
def houseVisible (role : Option String) (h : House) : Bool :=
  match role with
  | some r => if r = "owner" ∨ r = "admin" then true
      else decide (h.status = "approved") && h.isActive && h.isAvailable
  | none => decide (h.status = "approved") && h.isActive && h.isAvailable

/-- The database state touched by the house-details GET handler. -/
structure Store where
  houses : List House
  bookings : List Booking
  deriving Repr, DecidableEq

/-- The house-details GET handler (src/unnamed/part_001 lines 745-1100),
restricted to its effect on the store and the availability calendar it
returns.  The findOneAndUpdate increments views and appends to viewedBy
before the visibility gate runs, so the write happens even when a 404 is
returned.  Returns the updated store and, on success, the calendar. -/
def houseDetailsGet (s : Store) (houseId : Nat) (viewer : Option Nat) (role : Option String)
    (today ninety : Int) : Store × Option (List CalendarEntry) :=
  match s.houses.find? (fun h => decide (h.id = houseId)) with
  | none => (s, none)
  | some h =>
    let h2 := incView viewer h
    let s2 : Store :=
      { s with houses := updateWhereFirst (fun x => decide (x.id = houseId)) (incView viewer) s.houses }
    if houseVisible role h2 then
      (s2, some (availabilityCalendar (bookedDatesQuery s.bookings houseId today ninety)
        h2.price today ninety))
    else
      (s2, none)

/-- The pairwise no-overlap invariant of the spec, over the strict
(half-open) overlap test, for distinct bookings of one house. -/
def noConfOverlap (s : List Booking) : Prop :=
  ∀ b1 ∈ s, ∀ b2 ∈ s, b1.id ≠ b2.id → b1.houseId = b2.houseId →
    confActive b1 = true → confActive b2 = true →
    ¬(b1.checkInDate < b2.checkOutDate ∧ b2.checkInDate < b1.checkOutDate)

/-- Stores reachable from a state with no confirmed or active booking by
any sequence of create-booking and owner-bookings status operations. -/
inductive Reachable : List Booking → Prop where
  | init (s : List Booking) (h : ∀ b ∈ s, confActive b = false) : Reachable s
  | createStep (s : List Booking) (houses : List House)
      (renterId houseId newId : Nat) (checkIn checkOut : Int) :
      Reachable s →
      Reachable (userProfileCreateBooking houses s renterId houseId newId checkIn checkOut).2
  | putStep (s : List Booking) (callerId bookingId : Nat) (action : Action)
      (reason : Option String) :
      Reachable s →
      Reachable (ownerBookingsPut s callerId bookingId action reason).2

/-- Modelled from the spec: the half-open overlap predicate the spec says
every call site uses (ranges conflict iff a1 lt b2 AND b1 lt a2).  Kept
for comparison with dateOverlapQuery, the test the source actually runs. -/
def specHalfOpenOverlap (a1 a2 b1 b2 : Int) : Bool :=
  decide (a1 < b2) && decide (b1 < a2)

/-! ### List helper lemmas -/

theorem find?_decomp {p : α → Bool} {s : List α} {x : α} (h : s.find? p = some x) :
    ∃ l1 l2, s = l1 ++ x :: l2 ∧ (∀ y ∈ l1, p y = false) ∧ p x = true := by
  induction s with
  | nil => simp [List.find?] at h
  | cons a rest ih =>
    by_cases hpa : p a
    · refine ⟨[], rest, ?_, by simp, ?_⟩
      · simp [List.find?, hpa] at h
        simp [h]
      · simp [List.find?, hpa] at h
        simp [← h, hpa]
    · rw [List.find?] at h
      simp only [Bool.not_eq_true] at hpa
      rw [hpa] at h
      obtain ⟨l1, l2, hs, hl1, hx⟩ := ih h
      exact ⟨a :: l1, l2, by simp [hs], by
        intro y hy
        rcases List.mem_cons.mp hy with rfl | hy
        · exact hpa
        · exact hl1 y hy, hx⟩

theorem updateWhereFirst_append {p : α → Bool} {f : α → α} {l1 l2 : List α} {x : α}
    (h : ∀ y ∈ l1, p y = false) (hx : p x = true) :
    updateWhereFirst p f (l1 ++ x :: l2) = l1 ++ f x :: l2 := by
  induction l1 with
  | nil => simp [updateWhereFirst, hx]
  | cons a rest ih =>
    have ha : p a = false := h a (by simp)
    simp only [List.cons_append, updateWhereFirst, ha]
    simp only [Bool.false_eq_true, if_false, List.cons.injEq, true_and]
    exact ih fun y hy => h y (by simp [hy])

theorem find?_append_cons {p : α → Bool} {l1 l2 : List α} {x : α}
    (h : ∀ y ∈ l1, p y = false) (hx : p x = true) :
    (l1 ++ x :: l2).find? p = some x := by
  induction l1 with
  | nil => simp [List.find?, hx]
  | cons a rest ih =>
    have ha : p a = false := h a (by simp)
    simp only [List.cons_append, List.find?, ha]
    exact ih fun y hy => h y (by simp [hy])

theorem mem_updateWhereFirst {p : α → Bool} {f : α → α} {s : List α} {y : α}
    (h : y ∈ updateWhereFirst p f s) : y ∈ s ∨ ∃ x ∈ s, p x = true ∧ y = f x := by
  induction s with
  | nil => simp [updateWhereFirst] at h
  | cons a rest ih =>
    by_cases hpa : p a
    · simp only [updateWhereFirst, hpa, if_true] at h
      rcases List.mem_cons.mp h with rfl | hy
      · exact Or.inr ⟨a, by simp, hpa, rfl⟩
      · exact Or.inl (by simp [hy])
    · simp only [updateWhereFirst, hpa, if_false] at h
      rcases List.mem_cons.mp h with rfl | hy
      · exact Or.inl (by simp)
      · rcases ih hy with h1 | ⟨x, hx, hpx, rfl⟩
        · exact Or.inl (by simp [h1])
        · exact Or.inr ⟨x, by simp [hx], hpx, rfl⟩

theorem mem_updateWhereAll {p : α → Bool} {f : α → α} {s : List α} {y : α} :
    y ∈ updateWhereAll p f s ↔ ∃ x ∈ s, y = if p x then f x else x := by
  simp only [updateWhereAll, List.mem_map]
  constructor
  · rintro ⟨x, hx, rfl⟩; exact ⟨x, hx, rfl⟩
  · rintro ⟨x, hx, rfl⟩; exact ⟨x, hx, rfl⟩

/-! ### Invariant preservation lemmas -/

theorem cascadeSet_notActive (b : Booking) : confActive (cascadeSet b) = false := rfl

theorem noConf_updateAll {p : Booking → Bool} {f : Booking → Booking} {s : List Booking}
    (hf : ∀ b, confActive (f b) = false) (h : noConfOverlap s) :
    noConfOverlap (updateWhereAll p f s) := by
  intro b1 hb1 b2 hb2 hne hh hc1 hc2
  obtain ⟨x1, hx1, he1⟩ := mem_updateWhereAll.mp hb1
  obtain ⟨x2, hx2, he2⟩ := mem_updateWhereAll.mp hb2
  have e1 : b1 = x1 := by
    by_cases hp : p x1
    · exfalso
      rw [he1, if_pos hp, hf x1] at hc1
      exact Bool.false_ne_true hc1
    · rw [he1, if_neg hp]
  have e2 : b2 = x2 := by
    by_cases hp : p x2
    · exfalso
      rw [he2, if_pos hp, hf x2] at hc2
      exact Bool.false_ne_true hc2
    · rw [he2, if_neg hp]
  subst e1; subst e2
  exact h b1 hx1 b2 hx2 hne hh hc1 hc2

theorem noConf_updateFirst {p : Booking → Bool} {f : Booking → Booking} {s : List Booking}
    (hf : ∀ b, confActive (f b) = false) (h : noConfOverlap s) :
    noConfOverlap (updateWhereFirst p f s) := by
  intro b1 hb1 b2 hb2 hne hh hc1 hc2
  have m1 : b1 ∈ s := by
    rcases mem_updateWhereFirst hb1 with h1 | ⟨x, hx, hpx, rfl⟩
    · exact h1
    · exact absurd hc1 (by simp [hf x])
  have m2 : b2 ∈ s := by
    rcases mem_updateWhereFirst hb2 with h1 | ⟨x, hx, hpx, rfl⟩
    · exact h1
    · exact absurd hc2 (by simp [hf x])
  exact h b1 m1 b2 m2 hne hh hc1 hc2

theorem isTargetB_id {bookingId callerId : Nat} {b : Booking}
    (h : isTargetB bookingId callerId b = true) : b.id = bookingId := by
  simp [isTargetB, Bool.and_eq_true, decide_eq_true_eq] at h
  exact h.1

/-- Key step for the accept success path: if the conflict query came back
empty, confirming the target preserves the pairwise no-overlap property. -/
theorem noConf_confirm {s : List Booking} {callerId bookingId : Nat} {reason : Option String}
    {t : Booking}
    (hfind : s.find? (isTargetB bookingId callerId) = some t)
    (hempty : s.filter (acceptConflictPred bookingId t) = [])
    (hinv : noConfOverlap s) :
    noConfOverlap (updateWhereFirst (isTargetB bookingId callerId)
      (applyUpdateFields t callerId .accept reason) s) := by
  obtain ⟨l1, l2, hs, hl1, hpt⟩ := find?_decomp hfind
  have htid : t.id = bookingId := isTargetB_id hpt
  have hpred : ∀ b ∈ s, acceptConflictPred bookingId t b = false := by
    intro b hb
    exact Bool.not_eq_true _ |>.mp ((List.filter_eq_nil_iff.mp hempty) b hb)
  set f := applyUpdateFields t callerId .accept reason with hfdef
  have hkey : ∀ b ∈ s, b.id ≠ bookingId → b.houseId = t.houseId → confActive b = true →
      ¬(t.checkInDate < b.checkOutDate ∧ b.checkInDate < t.checkOutDate) := by
    intro b hb hbid hbh hbc hcontra
    have hp := hpred b hb
    have : acceptConflictPred bookingId t b = true := by
      simp only [acceptConflictPred, dateOverlapQuery, Bool.and_eq_true, decide_eq_true_eq]
      refine ⟨⟨⟨hbid, hbh⟩, hbc⟩, ?_, ?_⟩
      · omega
      · omega
    rw [hp] at this
    exact Bool.false_ne_true this
  rw [hs, updateWhereFirst_append hl1 hpt]
  have hmem : ∀ b ∈ l1 ++ f t :: l2, b = f t ∨ b ∈ s := by
    intro b hb
    rcases List.mem_append.mp hb with h1 | h1
    · exact Or.inr (by rw [hs]; exact List.mem_append.mpr (Or.inl h1))
    · rcases List.mem_cons.mp h1 with rfl | h1
      · exact Or.inl rfl
      · exact Or.inr (by
          rw [hs]; exact List.mem_append.mpr (Or.inr (List.mem_cons.mpr (Or.inr h1))))
  have hft_fields : (f t).id = t.id ∧ (f t).houseId = t.houseId ∧
      (f t).checkInDate = t.checkInDate ∧ (f t).checkOutDate = t.checkOutDate :=
    ⟨rfl, rfl, rfl, rfl⟩
  intro b1 hb1 b2 hb2 hne hh hc1 hc2
  rcases hmem b1 hb1 with e1 | m1 <;> rcases hmem b2 hb2 with e2 | m2
  · exfalso
    rw [e1, e2] at hne
    exact hne rfl
  · -- b1 is the confirmed target, b2 an untouched store element
    subst e1
    have hb2id : b2.id ≠ bookingId := by
      rw [hft_fields.1, htid] at hne
      exact fun hq => hne hq.symm
    have hb2h : b2.houseId = t.houseId := by rw [← hh, hft_fields.2.1]
    have := hkey b2 m2 hb2id hb2h hc2
    rw [hft_fields.2.2.1, hft_fields.2.2.2]
    intro hcon
    exact this ⟨hcon.1, hcon.2⟩
  · -- symmetric
    subst e2
    have hb1id : b1.id ≠ bookingId := by
      rw [hft_fields.1, htid] at hne
      exact fun hq => hne hq
    have hb1h : b1.houseId = t.houseId := by rw [hh, hft_fields.2.1]
    have := hkey b1 m1 hb1id hb1h hc1
    rw [hft_fields.2.2.1, hft_fields.2.2.2]
    intro hcon
    exact this ⟨hcon.2, hcon.1⟩
  · exact hinv b1 m1 b2 m2 hne hh hc1 hc2

theorem noConf_put (s : List Booking) (callerId bookingId : Nat) (action : Action)
    (reason : Option String) (hinv : noConfOverlap s) :
    noConfOverlap (ownerBookingsPut s callerId bookingId action reason).2 := by
  unfold ownerBookingsPut
  cases hfind : s.find? (isTargetB bookingId callerId) with
  | none => simpa using hinv
  | some t =>
    by_cases htr : action ∈ stateTransition t.status
    · simp only [if_pos htr]
      by_cases hcf : action = .accept ∧ s.filter (acceptConflictPred bookingId t) ≠ []
      · simp only [if_pos hcf]
        exact hinv
      · simp only [if_neg hcf]
        by_cases hacc : action = .accept
        · subst hacc
          have hempty : s.filter (acceptConflictPred bookingId t) = [] := by
            by_contra hne
            exact hcf ⟨rfl, hne⟩
          simp only [if_pos rfl, cascadeReject, cascadeRejectByIds]
          apply noConf_updateAll cascadeSet_notActive
          apply noConf_updateAll cascadeSet_notActive
          exact noConf_confirm hfind hempty hinv
        · simp only [if_neg hacc]
          refine noConf_updateFirst ?_ hinv
          intro b
          cases action with
          | accept => exact absurd rfl hacc
          | reject => rfl
          | cancel => rfl
          | complete => rfl
    · simp only [if_neg htr]
      exact hinv

theorem noConf_create (houses : List House) (s : List Booking)
    (renterId houseId newId : Nat) (checkIn checkOut : Int) (hinv : noConfOverlap s) :
    noConfOverlap
      (userProfileCreateBooking houses s renterId houseId newId checkIn checkOut).2 := by
  unfold userProfileCreateBooking
  cases hh : houses.find? (houseAvailPred houseId) with
  | none => simpa using hinv
  | some house =>
    cases hb : s.find? (createConflictPred houseId checkIn checkOut) with
    | some b => simpa using hinv
    | none =>
      intro b1 hb1 b2 hb2 hne hhh hc1 hc2
      simp only at hb1 hb2
      rcases List.mem_append.mp hb1 with m1 | m1
      · rcases List.mem_append.mp hb2 with m2 | m2
        · exact hinv b1 m1 b2 m2 hne hhh hc1 hc2
        · exfalso
          have : b2.status = .pending := by
            rcases List.mem_singleton.mp m2 with rfl
            rfl
          rw [confActive, this] at hc2
          simp at hc2
      · exfalso
        have : b1.status = .pending := by
          rcases List.mem_singleton.mp m1 with rfl
          rfl
        rw [confActive, this] at hc1
        simp at hc1

/-! ### Claim theorems -/

/-- C2: starting from a store with no confirmed or active bookings, any
sequence of create-booking and accept/reject/cancel/complete operations
leaves every pair of distinct confirmed-or-active bookings of one house
with non-overlapping intervals in the half-open sense: NOT
(b1.checkIn lt b2.checkOut AND b2.checkIn lt b1.checkOut). -/
theorem C2_invariant (s : List Booking) (h : Reachable s) : noConfOverlap s := by
  induction h with
  | init s h0 =>
    intro b1 hb1 b2 hb2 hne hh hc1 hc2
    rw [h0 b1 hb1] at hc1
    exact (Bool.false_ne_true hc1).elim
  | createStep s houses renterId houseId newId checkIn checkOut hr ih =>
    exact noConf_create houses s renterId houseId newId checkIn checkOut ih
  | putStep s callerId bookingId action reason hr ih =>
    exact noConf_put s callerId bookingId action reason ih

/-- C2 witness: a pending booking is accepted starting from a store with
no confirmed or active bookings; the resulting store satisfies the
no-overlap invariant. -/
theorem C2_invariant_witness :
    noConfOverlap (ownerBookingsPut [⟨1, 1, 7, 2, 10, 20, .pending, none, []⟩]
      7 1 .accept none).2 :=
  C2_invariant _ (Reachable.putStep _ 7 1 .accept none (Reachable.init _ (by decide)))

/-- C6: accepting a booking whose status is not pending fails with the
invalid-transition error carrying both the current status and the
attempted action, and the booking store is returned unchanged. -/
theorem C6_invalid_transition (s : List Booking) (callerId bookingId : Nat)
    (reason : Option String) (t : Booking)
    (hfind : s.find? (isTargetB bookingId callerId) = some t)
    (ht : t.status ≠ .pending) :
    ownerBookingsPut s callerId bookingId .accept reason =
      (.invalidTransition t.status .accept, s) := by
  unfold ownerBookingsPut
  rw [hfind]
  have : Action.accept ∉ stateTransition t.status := by
    cases hs : t.status with
    | pending => exact absurd hs ht
    | confirmed => decide
    | active => decide
    | completed => decide
    | cancelled => decide
    | rejected => decide
  simp only [if_neg this]

/-- C6 witness: accepting an already-confirmed booking fails with the
invalid-transition error and leaves the store unchanged. -/
theorem C6_invalid_transition_witness :
    ownerBookingsPut [⟨2, 1, 7, 3, 20, 30, .confirmed, none, []⟩] 7 2 .accept none =
      (.invalidTransition .confirmed .accept,
       [⟨2, 1, 7, 3, 20, 30, .confirmed, none, []⟩]) :=
  C6_invalid_transition _ 7 2 none ⟨2, 1, 7, 3, 20, 30, .confirmed, none, []⟩
    (by decide) (by decide)

/-- C10: every status-update action is scoped to bookings owned by the
caller: when no booking in the store has the requested id with the
caller as owner, the operation returns not-found and the store is
unchanged.  callerId is always the id of the authenticated user, for
admins just as for owners. -/
theorem C10_owner_scope (s : List Booking) (callerId bookingId : Nat) (action : Action)
    (reason : Option String)
    (h : ∀ b ∈ s, ¬(b.id = bookingId ∧ b.ownerId = callerId)) :
    ownerBookingsPut s callerId bookingId action reason = (.notFound, s) := by
  unfold ownerBookingsPut
  have hnone : s.find? (isTargetB bookingId callerId) = none := by
    rw [List.find?_eq_none]
    intro b hb
    simp only [isTargetB, Bool.and_eq_true, decide_eq_true_eq]
    exact fun hq => h b hb ⟨hq.1, hq.2⟩
  rw [hnone]

/-- C10 witness: a caller (for example an admin) whose id is not the
ownerId of the requested booking gets not-found for every action and the
store is unchanged. -/
theorem C10_owner_scope_witness :
    ownerBookingsPut [⟨1, 1, 7, 2, 10, 20, .pending, none, []⟩] 8 1 .accept none =
      (.notFound, [⟨1, 1, 7, 2, 10, 20, .pending, none, []⟩]) :=
  C10_owner_scope _ 8 1 .accept none (by decide)

/-- C1 counterexample: a pending booking over days [10,20] exactly abuts a
confirmed booking over [20,30] (checkOut of one equals checkIn of the
other, no half-open overlap), yet accepting it returns the 409 date
conflict instead of succeeding, because every call site tests
checkInDate lte checkOut AND checkOutDate gte checkIn. -/
theorem C1_abutting_counterexample :
    specHalfOpenOverlap 10 20 20 30 = false ∧
    ownerBookingsPut
      [⟨1, 1, 7, 2, 10, 20, .pending, none, []⟩,
       ⟨2, 1, 7, 3, 20, 30, .confirmed, none, []⟩] 7 1 .accept none =
      (.dateConflict [⟨2, 20, 30, .confirmed⟩],
       [⟨1, 1, 7, 2, 10, 20, .pending, none, []⟩,
        ⟨2, 1, 7, 3, 20, 30, .confirmed, none, []⟩]) := by decide

/-- C1 amended: the overlap test at every call site is the closed-interval
query (checkInDate lte rangeEnd AND checkOutDate gte rangeStart), so a
boundary-touching pair IS treated as conflicting: accepting a pending
booking that exactly abuts a confirmed booking of the same house fails
with a non-empty date-conflict list and leaves the store unchanged. -/
theorem C1_closed_overlap (s : List Booking) (callerId bookingId : Nat)
    (reason : Option String) (t c : Booking)
    (hfind : s.find? (isTargetB bookingId callerId) = some t)
    (ht : t.status = .pending)
    (hc : c ∈ s) (hcid : c.id ≠ bookingId) (hch : c.houseId = t.houseId)
    (hcs : c.status = .confirmed)
    (habut : c.checkInDate = t.checkOutDate)
    (hcw : c.checkInDate ≤ c.checkOutDate)
    (htw : t.checkInDate ≤ t.checkOutDate) :
    ∃ conflicts, conflicts ≠ [] ∧
      ownerBookingsPut s callerId bookingId .accept reason =
        (.dateConflict conflicts, s) := by
  have hpredc : acceptConflictPred bookingId t c = true := by
    simp only [acceptConflictPred, confActive, dateOverlapQuery, Bool.and_eq_true,
      Bool.or_eq_true, decide_eq_true_eq]
    refine ⟨⟨⟨hcid, hch⟩, Or.inl hcs⟩, by omega, by omega⟩
  have hne : s.filter (acceptConflictPred bookingId t) ≠ [] := by
    intro hq
    have := List.filter_eq_nil_iff.mp hq c hc
    rw [hpredc] at this
    exact this rfl
  refine ⟨(s.filter (acceptConflictPred bookingId t)).map mkConflict, ?_, ?_⟩
  · intro hq
    exact hne (List.map_eq_nil_iff.mp hq)
  · have htr : Action.accept ∈ stateTransition t.status := by rw [ht]; decide
    simp only [ownerBookingsPut, hfind]
    rw [if_pos htr, if_pos ⟨trivial, hne⟩]

/-- C1 witness: the amended theorem applied to the concrete abutting pair
of the counterexample store. -/
theorem C1_closed_overlap_witness :
    ∃ conflicts, conflicts ≠ [] ∧
      ownerBookingsPut
        [⟨1, 1, 7, 2, 10, 20, .pending, none, []⟩,
         ⟨2, 1, 7, 3, 20, 30, .confirmed, none, []⟩] 7 1 .accept none =
        (.dateConflict conflicts,
         [⟨1, 1, 7, 2, 10, 20, .pending, none, []⟩,
          ⟨2, 1, 7, 3, 20, 30, .confirmed, none, []⟩]) :=
  C1_closed_overlap
    [⟨1, 1, 7, 2, 10, 20, .pending, none, []⟩,
     ⟨2, 1, 7, 3, 20, 30, .confirmed, none, []⟩] 7 1 none
    ⟨1, 1, 7, 2, 10, 20, .pending, none, []⟩
    ⟨2, 1, 7, 3, 20, 30, .confirmed, none, []⟩
    (by decide) (by decide) (by decide) (by decide) (by decide) (by decide)
    (by decide) (by decide) (by decide)

/-- C4 counterexample: another PENDING booking of the same house fully
overlaps the candidate range (even in the half-open sense), yet accepting
succeeds: the re-validation query only consults statuses confirmed and
active, not pending. -/
theorem C4_pending_not_consulted_counterexample :
    (ownerBookingsPut
      [⟨1, 1, 7, 2, 10, 20, .pending, none, []⟩,
       ⟨2, 1, 7, 3, 10, 20, .pending, none, []⟩] 7 1 .accept none).1 =
      .ok .confirmed ∧
    specHalfOpenOverlap 10 20 10 20 = true := by decide

/-- C4 amended: accepting a pending booking fails with the date-conflict
response, carrying (id, checkIn, checkOut, status) of each conflicting
booking and leaving the store unchanged, exactly when some other booking
of the same house with status confirmed or active satisfies the
closed-interval test against the candidate range. -/
theorem C4_conflict_iff (s : List Booking) (callerId bookingId : Nat)
    (reason : Option String) (t : Booking)
    (hfind : s.find? (isTargetB bookingId callerId) = some t)
    (ht : t.status = .pending) :
    (ownerBookingsPut s callerId bookingId .accept reason =
        (.dateConflict ((s.filter (acceptConflictPred bookingId t)).map mkConflict), s))
      ↔ ∃ b ∈ s, b.id ≠ bookingId ∧ b.houseId = t.houseId ∧
          (b.status = .confirmed ∨ b.status = .active) ∧
          b.checkInDate ≤ t.checkOutDate ∧ b.checkOutDate ≥ t.checkInDate := by
  have htr : Action.accept ∈ stateTransition t.status := by rw [ht]; decide
  have hiff : s.filter (acceptConflictPred bookingId t) ≠ [] ↔
      ∃ b ∈ s, b.id ≠ bookingId ∧ b.houseId = t.houseId ∧
        (b.status = .confirmed ∨ b.status = .active) ∧
        b.checkInDate ≤ t.checkOutDate ∧ b.checkOutDate ≥ t.checkInDate := by
    rw [Ne, List.filter_eq_nil_iff]
    push_neg
    simp only [acceptConflictPred, confActive, dateOverlapQuery, Bool.and_eq_true,
      Bool.or_eq_true, decide_eq_true_eq, ge_iff_le]
    constructor
    · rintro ⟨b, hb, ⟨⟨⟨h1, h2⟩, h3⟩, h4, h5⟩⟩
      exact ⟨b, hb, h1, h2, h3, h4, h5⟩
    · rintro ⟨b, hb, h1, h2, h3, h4, h5⟩
      exact ⟨b, hb, ⟨⟨⟨h1, h2⟩, h3⟩, h4, h5⟩⟩
  rw [← hiff]
  constructor
  · intro heq
    by_contra hq
    simp only [ownerBookingsPut, hfind] at heq
    rw [if_pos htr, if_neg (fun hp => (hp.2 hq).elim)] at heq
    have hfst := congrArg Prod.fst heq
    simp at hfst
  · intro hne
    simp only [ownerBookingsPut, hfind]
    rw [if_pos htr, if_pos ⟨trivial, hne⟩]

/-- C4 witness: with one overlapping confirmed booking present the accept
returns exactly the 409 conflict payload and an unchanged store; the
amended theorem applied at that input. -/
theorem C4_conflict_iff_witness :
    (ownerBookingsPut
      [⟨1, 1, 7, 2, 10, 20, .pending, none, []⟩,
       ⟨2, 1, 7, 3, 15, 30, .confirmed, none, []⟩] 7 1 .accept none =
      (.dateConflict (([⟨1, 1, 7, 2, 10, 20, .pending, none, []⟩,
          ⟨2, 1, 7, 3, 15, 30, .confirmed, none, []⟩].filter
            (acceptConflictPred 1 ⟨1, 1, 7, 2, 10, 20, .pending, none, []⟩)).map mkConflict),
       [⟨1, 1, 7, 2, 10, 20, .pending, none, []⟩,
        ⟨2, 1, 7, 3, 15, 30, .confirmed, none, []⟩]))
      ↔ ∃ b ∈ ([⟨1, 1, 7, 2, 10, 20, .pending, none, []⟩,
          ⟨2, 1, 7, 3, 15, 30, .confirmed, none, []⟩] : List Booking),
          b.id ≠ 1 ∧ b.houseId = 1 ∧
          (b.status = .confirmed ∨ b.status = .active) ∧
          b.checkInDate ≤ 20 ∧ b.checkOutDate ≥ 10 :=
  C4_conflict_iff
    [⟨1, 1, 7, 2, 10, 20, .pending, none, []⟩,
     ⟨2, 1, 7, 3, 15, 30, .confirmed, none, []⟩] 7 1 none
    ⟨1, 1, 7, 2, 10, 20, .pending, none, []⟩ (by decide) (by decide)

/-- C5 counterexample: the findOneAndUpdate that writes the confirmation
filters only on _id and ownerId; applied to a booking whose stored status
is cancelled it still overwrites the status with confirmed. -/
theorem C5_write_counterexample :
    updateWhereFirst (isTargetB 1 7)
      (applyUpdateFields ⟨1, 1, 7, 2, 10, 20, .cancelled, none, []⟩ 7 .accept none)
      [⟨1, 1, 7, 2, 10, 20, .cancelled, none, []⟩] =
      [⟨1, 1, 7, 2, 10, 20, .confirmed, none,
        [⟨.cancelled, .confirmed, .accept, 7, none⟩]⟩] := by decide

/-- C5 amended: the confirmation write is conditional only on _id and
ownerId, not on the stored status: it rewrites the first booking matching
that filter and sets its status to confirmed whatever the stored status
was.  (The pending precondition is enforced only by the separate read at
the start of the handler, not by the write.) -/
theorem C5_write_unconditional (s : List Booking) (callerId bookingId : Nat)
    (booking t : Booking) (reason : Option String)
    (hfind : s.find? (isTargetB bookingId callerId) = some t) :
    ∃ l1 l2, s = l1 ++ t :: l2 ∧
      updateWhereFirst (isTargetB bookingId callerId)
          (applyUpdateFields booking callerId .accept reason) s =
        l1 ++ applyUpdateFields booking callerId .accept reason t :: l2 ∧
      (applyUpdateFields booking callerId .accept reason t).status = .confirmed := by
  obtain ⟨l1, l2, hs, hl1, hpt⟩ := find?_decomp hfind
  exact ⟨l1, l2, hs, by rw [hs, updateWhereFirst_append hl1 hpt], rfl⟩

/-- C5 witness: the amended theorem at the concrete cancelled booking. -/
theorem C5_write_unconditional_witness :
    ∃ l1 l2, [(⟨1, 1, 7, 2, 10, 20, .cancelled, none, []⟩ : Booking)] = l1 ++
        (⟨1, 1, 7, 2, 10, 20, .cancelled, none, []⟩ : Booking) :: l2 ∧
      updateWhereFirst (isTargetB 1 7)
          (applyUpdateFields ⟨1, 1, 7, 2, 10, 20, .cancelled, none, []⟩ 7 .accept none)
          [⟨1, 1, 7, 2, 10, 20, .cancelled, none, []⟩] =
        l1 ++ applyUpdateFields ⟨1, 1, 7, 2, 10, 20, .cancelled, none, []⟩ 7 .accept none
          ⟨1, 1, 7, 2, 10, 20, .cancelled, none, []⟩ :: l2 ∧
      (applyUpdateFields ⟨1, 1, 7, 2, 10, 20, .cancelled, none, []⟩ 7 .accept none
        ⟨1, 1, 7, 2, 10, 20, .cancelled, none, []⟩).status = .confirmed :=
  C5_write_unconditional [⟨1, 1, 7, 2, 10, 20, .cancelled, none, []⟩] 7 1
    ⟨1, 1, 7, 2, 10, 20, .cancelled, none, []⟩
    ⟨1, 1, 7, 2, 10, 20, .cancelled, none, []⟩ none (by decide)

theorem updateWhereAll_mem_image {p : α → Bool} {f : α → α} {s : List α} {x : α}
    (hx : x ∈ s) : (if p x then f x else x) ∈ updateWhereAll p f s :=
  List.mem_map_of_mem _ hx

/-- C3 counterexample: accepting booking 1 over [10,20]; booking 2 over
[20,25] is pending and does NOT overlap in the half-open sense (its
check-in equals the accepted check-out), yet the cascade rejects it; and
its statusHistory stays empty, no entry is appended by the cascade
updateMany. -/
theorem C3_cascade_counterexample :
    ownerBookingsPut
      [⟨1, 1, 7, 2, 10, 20, .pending, none, []⟩,
       ⟨2, 1, 7, 3, 20, 25, .pending, none, []⟩] 7 1 .accept none =
      (.ok .confirmed,
       [⟨1, 1, 7, 2, 10, 20, .confirmed, none,
          [⟨.pending, .confirmed, .accept, 7, none⟩]⟩,
        ⟨2, 1, 7, 3, 20, 25, .rejected,
          some "Dates no longer available (booking accepted for another renter)", []⟩]) ∧
    specHalfOpenOverlap 10 20 20 25 = false := by decide

/-- C3 amended: when a pending booking is accepted with no confirmed or
active conflict, every other booking of the same house that is pending
and satisfies the closed-interval test is set to rejected with
rejectionReason Dates-no-longer-available, with its statusHistory left
untouched (no entry appended); bookings matching neither the target
filter nor the cascade filter are carried over unchanged. -/
theorem C3_cascade (s : List Booking) (callerId bookingId : Nat) (reason : Option String)
    (t : Booking)
    (hfind : s.find? (isTargetB bookingId callerId) = some t)
    (ht : t.status = .pending)
    (hempty : s.filter (acceptConflictPred bookingId t) = [])
    (hnodup : (s.map Booking.id).Nodup) :
    ∃ s2, ownerBookingsPut s callerId bookingId .accept reason = (.ok .confirmed, s2) ∧
      (∀ b ∈ s, cascadePred bookingId t b = true → cascadeSet b ∈ s2) ∧
      (∀ b ∈ s, isTargetB bookingId callerId b = false →
        cascadePred bookingId t b = false → b ∈ s2) ∧
      ∀ b : Booking, (cascadeSet b).status = .rejected ∧
        (cascadeSet b).rejectionReason =
          some "Dates no longer available (booking accepted for another renter)" ∧
        (cascadeSet b).statusHistory = b.statusHistory := by
  have htr : Action.accept ∈ stateTransition t.status := by rw [ht]; decide
  obtain ⟨l1, l2, hs, hl1, hpt⟩ := find?_decomp hfind
  have htid : t.id = bookingId := isTargetB_id hpt
  set f := applyUpdateFields t callerId .accept reason with hf
  have hS1 : updateWhereFirst (isTargetB bookingId callerId) f s = l1 ++ f t :: l2 := by
    rw [hs]; exact updateWhereFirst_append hl1 hpt
  have hmemS1 : ∀ x ∈ l1 ++ f t :: l2, x = f t ∨ x ∈ s := by
    intro x hx
    rcases List.mem_append.mp hx with h1 | h1
    · exact Or.inr (by rw [hs]; exact List.mem_append.mpr (Or.inl h1))
    · rcases List.mem_cons.mp h1 with rfl | h1
      · exact Or.inl rfl
      · exact Or.inr (by
          rw [hs]; exact List.mem_append.mpr (Or.inr (List.mem_cons.mpr (Or.inr h1))))
  have hft_pred : cascadePred bookingId t (f t) = false := by
    simp [cascadePred, hf, applyUpdateFields, actionNewStatus]
  have hinS1 : ∀ b ∈ s, b.id ≠ bookingId → b ∈ l1 ++ f t :: l2 := by
    intro b hb hbid
    rw [hs] at hb
    rcases List.mem_append.mp hb with h1 | h1
    · exact List.mem_append.mpr (Or.inl h1)
    · rcases List.mem_cons.mp h1 with rfl | h1
      · exact absurd htid hbid
      · exact List.mem_append.mpr (Or.inr (List.mem_cons.mpr (Or.inr h1)))
  refine ⟨cascadeReject bookingId t (cascadeRejectByIds bookingId t (l1 ++ f t :: l2)),
    ?_, ?_, ?_, fun b => ⟨rfl, rfl, rfl⟩⟩
  · simp only [ownerBookingsPut, hfind]
    rw [if_pos htr, if_neg (fun hp => hp.2 hempty), if_pos trivial, hS1]
    rfl
  · -- cascadePred matches are rejected with reason and untouched history
    intro b hb hpred
    have hbid : b.id ≠ bookingId := by
      simp only [cascadePred, Bool.and_eq_true, decide_eq_true_eq] at hpred
      exact hpred.1.1.1
    have hbS1 : b ∈ l1 ++ f t :: l2 := hinS1 b hb hbid
    have hmemfil : b ∈ (l1 ++ f t :: l2).filter (cascadePred bookingId t) :=
      List.mem_filter.mpr ⟨hbS1, hpred⟩
    have hp1 : (((l1 ++ f t :: l2).filter (cascadePred bookingId t)).map
        (fun b => b.id)).contains b.id = true := by
      simpa using List.mem_map_of_mem (fun b => b.id) hmemfil
    have hstep1 : cascadeSet b ∈ cascadeRejectByIds bookingId t (l1 ++ f t :: l2) := by
      simp only [cascadeRejectByIds]
      have := updateWhereAll_mem_image (p := fun x =>
        (((l1 ++ f t :: l2).filter (cascadePred bookingId t)).map
          (fun b => b.id)).contains x.id) (f := cascadeSet) hbS1
      rwa [if_pos hp1] at this
    have hcp2 : cascadePred bookingId t (cascadeSet b) = false := by
      simp [cascadePred, cascadeSet]
    have := updateWhereAll_mem_image (p := cascadePred bookingId t) (f := cascadeSet) hstep1
    rw [if_neg (by rw [hcp2]; exact Bool.false_ne_true)] at this
    exact this
  · -- untouched bookings are carried over
    intro b hb htgt hcasc
    have hbid : b.id ≠ bookingId := by
      intro hq
      have hbt : b = t := by
        rcases hs ▸ hb with hmem
        have := List.inj_on_of_nodup_map hnodup hb (by
          rw [hs]; exact List.mem_append.mpr (Or.inr (List.mem_cons.mpr (Or.inl rfl)))) (by
            rw [hq, htid])
        exact this
      rw [hbt, hpt] at htgt
      exact Bool.false_ne_true htgt.symm
    have hbS1 : b ∈ l1 ++ f t :: l2 := hinS1 b hb hbid
    have hp1 : (((l1 ++ f t :: l2).filter (cascadePred bookingId t)).map
        (fun b => b.id)).contains b.id = false := by
      by_contra hq
      rw [Bool.not_eq_false] at hq
      have : b.id ∈ ((l1 ++ f t :: l2).filter (cascadePred bookingId t)).map
          (fun b => b.id) := by simpa using hq
      obtain ⟨x, hxfil, hxid⟩ := List.mem_map.mp this
      have hxS1 : x ∈ l1 ++ f t :: l2 := (List.mem_filter.mp hxfil).1
      have hxpred : cascadePred bookingId t x = true := (List.mem_filter.mp hxfil).2
      rcases hmemS1 x hxS1 with rfl | hxs
      · rw [hft_pred] at hxpred
        exact Bool.false_ne_true hxpred
      · have : x = b := List.inj_on_of_nodup_map hnodup hxs hb hxid
        rw [this, hcasc] at hxpred
        exact Bool.false_ne_true hxpred
    have hstep1 : b ∈ cascadeRejectByIds bookingId t (l1 ++ f t :: l2) := by
      simp only [cascadeRejectByIds]
      have := updateWhereAll_mem_image (p := fun x =>
        (((l1 ++ f t :: l2).filter (cascadePred bookingId t)).map
          (fun b => b.id)).contains x.id) (f := cascadeSet) hbS1
      rwa [if_neg (fun hq => Bool.false_ne_true (hp1.symm.trans hq))] at this
    have := updateWhereAll_mem_image (p := cascadePred bookingId t) (f := cascadeSet) hstep1
    rwa [if_neg (by rw [hcasc]; exact Bool.false_ne_true)] at this

/-- C3 witness: the amended theorem at a concrete two-booking store with an
overlapping pending competitor. -/
theorem C3_cascade_witness :
    ∃ s2, ownerBookingsPut
        [⟨1, 1, 7, 2, 10, 20, .pending, none, []⟩,
         ⟨2, 1, 7, 3, 12, 25, .pending, none, []⟩] 7 1 .accept none =
        (.ok .confirmed, s2) ∧
      (∀ b ∈ ([⟨1, 1, 7, 2, 10, 20, .pending, none, []⟩,
          ⟨2, 1, 7, 3, 12, 25, .pending, none, []⟩] : List Booking),
        cascadePred 1 ⟨1, 1, 7, 2, 10, 20, .pending, none, []⟩ b = true →
          cascadeSet b ∈ s2) ∧
      (∀ b ∈ ([⟨1, 1, 7, 2, 10, 20, .pending, none, []⟩,
          ⟨2, 1, 7, 3, 12, 25, .pending, none, []⟩] : List Booking),
        isTargetB 1 7 b = false →
          cascadePred 1 ⟨1, 1, 7, 2, 10, 20, .pending, none, []⟩ b = false → b ∈ s2) ∧
      ∀ b : Booking, (cascadeSet b).status = .rejected ∧
        (cascadeSet b).rejectionReason =
          some "Dates no longer available (booking accepted for another renter)" ∧
        (cascadeSet b).statusHistory = b.statusHistory :=
  C3_cascade
    [⟨1, 1, 7, 2, 10, 20, .pending, none, []⟩,
     ⟨2, 1, 7, 3, 12, 25, .pending, none, []⟩] 7 1 none
    ⟨1, 1, 7, 2, 10, 20, .pending, none, []⟩
    (by decide) (by decide) (by decide) (by decide)

/-- C7 counterexample: one confirmed booking spanning days 5 to 10 over a
30-day window starting at day 0: day 10 (the checkout day) is marked
unavailable, because the calendar containment test is
day gte checkInDate AND day lte checkOutDate (closed at both ends). -/
theorem C7_checkout_day_counterexample :
    (availabilityCalendar
      (bookedDatesQuery [⟨1, 1, 7, 2, 5, 10, .confirmed, none, []⟩] 1 0 29)
      100 0 29)[10]? = some ⟨10, false, 100⟩ := by decide

theorem availabilityCalendar_mem (bd : List Booking) (price today ninety : Int) (i : Nat)
    (hi : i < (ninety - today + 1).toNat) :
    ({ date := today + (i : Int)
       available := !(bd.any fun b =>
         decide (today + (i : Int) ≥ b.checkInDate) &&
         decide (today + (i : Int) ≤ b.checkOutDate))
       price := price } : CalendarEntry) ∈ availabilityCalendar bd price today ninety := by
  unfold availabilityCalendar
  exact List.mem_map_of_mem
    (fun i : Nat =>
      let day : Int := today + i
      ({ date := day
         available := !(bd.any fun b =>
           decide (day ≥ b.checkInDate) && decide (day ≤ b.checkOutDate))
         price := price } : CalendarEntry))
    (List.mem_range.mpr hi)

/-- C7 amended: a day of the window is marked unavailable exactly when
some booking of the house with status confirmed or active satisfies
checkInDate lte day AND day lte checkOutDate — closed containment, so the
checkout day itself is also unavailable. -/
theorem C7_calendar (bookings : List Booking) (houseId : Nat) (price : Int)
    (today ninety day : Int) (h1 : today ≤ day) (h2 : day ≤ ninety) :
    ∃ e ∈ availabilityCalendar (bookedDatesQuery bookings houseId today ninety)
        price today ninety,
      e.date = day ∧
      (e.available = false ↔ ∃ b ∈ bookings, b.houseId = houseId ∧
        (b.status = .confirmed ∨ b.status = .active) ∧
        b.checkInDate ≤ day ∧ day ≤ b.checkOutDate) := by
  have hi : (day - today).toNat < (ninety - today + 1).toNat := by omega
  have hday : today + ((day - today).toNat : Int) = day := by omega
  refine ⟨{ date := today + ((day - today).toNat : Int)
            available := !((bookedDatesQuery bookings houseId today ninety).any fun b =>
              decide (today + ((day - today).toNat : Int) ≥ b.checkInDate) &&
              decide (today + ((day - today).toNat : Int) ≤ b.checkOutDate))
            price := price }, ?_, ?_, ?_⟩
  · exact availabilityCalendar_mem (bookedDatesQuery bookings houseId today ninety)
      price today ninety (day - today).toNat hi
  · exact hday
  · rw [hday]
    rw [show ∀ x : Bool, ((!x) = false ↔ x = true) from fun x => by cases x <;> simp]
    simp only [List.any_eq_true, bookedDatesQuery, List.mem_filter,
      confActive, dateOverlapQuery, Bool.and_eq_true, Bool.or_eq_true,
      decide_eq_true_eq, ge_iff_le]
    constructor
    · rintro ⟨b, ⟨hb, ⟨hh, hst⟩, hw1, hw2⟩, hci, hco⟩
      exact ⟨b, hb, hh, hst, hci, hco⟩
    · rintro ⟨b, hb, hh, hst, hci, hco⟩
      exact ⟨b, ⟨hb, ⟨hh, hst⟩, by omega, by omega⟩, hci, hco⟩

/-- C7 witness: the amended theorem at day 10 of the concrete window with
the confirmed booking spanning days 5 to 10. -/
theorem C7_calendar_witness :
    ∃ e ∈ availabilityCalendar
        (bookedDatesQuery [⟨1, 1, 7, 2, 5, 10, .confirmed, none, []⟩] 1 0 29) 100 0 29,
      e.date = 10 ∧
      (e.available = false ↔ ∃ b ∈ ([⟨1, 1, 7, 2, 5, 10, .confirmed, none, []⟩] : List Booking),
        b.houseId = 1 ∧ (b.status = .confirmed ∨ b.status = .active) ∧
        b.checkInDate ≤ 10 ∧ (10 : Int) ≤ b.checkOutDate) :=
  C7_calendar [⟨1, 1, 7, 2, 5, 10, .confirmed, none, []⟩] 1 100 0 29 10
    (by decide) (by decide)

/-- C8 counterexample: the GET that renders the calendar is not a pure
read of the store: it increments the views counter of the house and
appends to viewedBy, so the store changes. -/
theorem C8_not_pure_counterexample :
    (houseDetailsGet ⟨[⟨1, 7, "approved", true, true, 100, 0, []⟩], []⟩
      1 none none 0 29).1 ≠ ⟨[⟨1, 7, "approved", true, true, 100, 0, []⟩], []⟩ := by decide

theorem houseVisible_incView (role : Option String) (v : Option Nat) (h : House) :
    houseVisible role (incView v h) = houseVisible role h := by
  cases role <;> rfl

/-- C8 amended: the handler never writes the bookings collection, and the
calendar it returns is a pure function of the booking set: running the
handler again on the store it produced yields the identical calendar
response (only the house view counters differ between the two stores). -/
theorem C8_calendar_deterministic (s : Store) (houseId : Nat) (viewer : Option Nat)
    (role : Option String) (today ninety : Int) :
    (houseDetailsGet s houseId viewer role today ninety).1.bookings = s.bookings ∧
    (houseDetailsGet (houseDetailsGet s houseId viewer role today ninety).1
        houseId viewer role today ninety).2 =
      (houseDetailsGet s houseId viewer role today ninety).2 := by
  cases hfind : s.houses.find? (fun x => decide (x.id = houseId)) with
  | none =>
    constructor
    · simp only [houseDetailsGet, hfind]
    · simp only [houseDetailsGet, hfind]
  | some h =>
    obtain ⟨l1, l2, hs, hl1, hph⟩ := find?_decomp hfind
    have hidp : (fun x => decide (x.id = houseId)) (incView viewer h) = true := by
      simpa [incView] using hph
    have hupd : updateWhereFirst (fun x => decide (x.id = houseId)) (incView viewer) s.houses
        = l1 ++ incView viewer h :: l2 := by
      rw [hs]; exact updateWhereFirst_append hl1 hph
    have hfst : (houseDetailsGet s houseId viewer role today ninety).1 =
        ⟨updateWhereFirst (fun x => decide (x.id = houseId)) (incView viewer) s.houses,
         s.bookings⟩ := by
      simp only [houseDetailsGet, hfind]
      split <;> rfl
    constructor
    · rw [hfst]
    · rw [hfst]
      have hfind2 : (⟨updateWhereFirst (fun x => decide (x.id = houseId))
            (incView viewer) s.houses, s.bookings⟩ : Store).houses.find?
            (fun x => decide (x.id = houseId)) = some (incView viewer h) := by
        show (updateWhereFirst (fun x => decide (x.id = houseId))
          (incView viewer) s.houses).find? (fun x => decide (x.id = houseId)) = _
        rw [hupd]
        exact find?_append_cons hl1 hidp
      simp only [houseDetailsGet, hfind, hfind2]
      rw [houseVisible_incView]
      split <;> rfl

/-- C9 counterexample: a create-booking request with checkInDate 5 and
checkOutDate 3 (checkIn gt checkOut) is not rejected: a pending booking
with the inverted range is inserted into the store. -/
theorem C9_no_range_check_counterexample :
    userProfileCreateBooking [⟨1, 7, "approved", true, true, 100, 0, []⟩] [] 5 1 99 5 3 =
      (.created ⟨99, 1, 7, 5, 5, 3, .pending, none, []⟩,
       [⟨99, 1, 7, 5, 5, 3, .pending, none, []⟩]) := by decide

/-- C9 amended: the create-booking handlers perform no comparison of
checkIn against checkOut: whenever the house is available and the
availability query finds no conflict, the booking is created even when
checkOut lte checkIn. -/
theorem C9_no_range_check (houses : List House) (bookings : List Booking)
    (renterId houseId newId : Nat) (checkIn checkOut : Int) (house : House)
    (hho : houses.find? (houseAvailPred houseId) = some house)
    (hnc : bookings.find? (createConflictPred houseId checkIn checkOut) = none)
    (_hrange : checkOut ≤ checkIn) :
    userProfileCreateBooking houses bookings renterId houseId newId checkIn checkOut =
      (.created ⟨newId, houseId, house.ownerId, renterId, checkIn, checkOut,
        .pending, none, []⟩,
       bookings ++ [⟨newId, houseId, house.ownerId, renterId, checkIn, checkOut,
        .pending, none, []⟩]) := by
  simp only [userProfileCreateBooking, hho, hnc]

/-- C9 witness: the amended theorem at the concrete inverted range of the
counterexample. -/
theorem C9_no_range_check_witness :
    userProfileCreateBooking [⟨1, 7, "approved", true, true, 100, 0, []⟩] [] 5 1 99 5 3 =
      (.created ⟨99, 1, (⟨1, 7, "approved", true, true, 100, 0, []⟩ : House).ownerId,
        5, 5, 3, .pending, none, []⟩,
       [] ++ [⟨99, 1, (⟨1, 7, "approved", true, true, 100, 0, []⟩ : House).ownerId,
        5, 5, 3, .pending, none, []⟩]) :=
  C9_no_range_check [⟨1, 7, "approved", true, true, 100, 0, []⟩] [] 5 1 99 5 3
    ⟨1, 7, "approved", true, true, 100, 0, []⟩ (by decide) (by decide) (by decide)

end RentZone
